import Mathlib

/-!
Verification of `localfilesync.py` — a one-way directory synchronization tool.

Shallow embedding conventions:
* A relative path (Python: a tuple of path parts, e.g. `('a', 'b', 'file.txt')`)
  is a `Path := List String`.
* A Python string (used for user answers to prompts and for the quoted-path
  helper) is a `List Char`; `str.lower()` is `lower` below.
* A scan result (Python: a `set` of part-tuples) is modelled by the list of
  elements in the (arbitrary) order the set iterates; set difference
  `set(a) - set(b)` becomes a filter of that list, whose `toFinset` is proved
  to be the `Finset` difference.
* Filesystem mutations and printed status lines are reified as an `Event`
  trace; each phase of the tool is a function from its inputs (including the
  operator's prompt answers and an optional interrupt point) to its trace.
* `stat().st_mtime` is a function `Path → Nat` supplied per tree; a stat of a
  destination path that the destination scan does not contain raises, which
  the embedding models with `Option`/an error flag.
-/

/-- A relative path: the tuple of path segments Python produces via
`item.parts[len(root.parts):]`. -/
abbrev RelPath := List String

/-- Python `str.lower()` on a prompt answer modelled as `List Char`. -/
def lower (s : List Char) : List Char := s.map Char.toLower

/-- Embedding of `clean_path` (localfilesync.py lines 11–16): strip one
trailing `"` (Python `path[:-1]`), then one leading `"` (Python `path[1:]`). -/
def clean_path (path : List Char) : List Char :=
  let path1 := if path.getLast? = some '"' then path.dropLast else path
  if path1.head? = some '"' then path1.tail else path1

/-- A directory tree: each node holds the list of `(name, subtree)` pairs
that `folder.iterdir()` discovers (files are irrelevant to the subfolder
walk). -/
inductive FsTree where
  | node : List (String × FsTree) → FsTree

/-- Embedding of `get_subfolders` (lines 20–28): for each directory entry,
record its path relative to the root (accumulated in `pre`) and recurse into
it.  The Python slice `item.parts[len(root_folder.parts):]` is the
accumulated `pre ++ [name]`. -/
def get_subfolders : FsTree → List String → List (List String)
  | .node [], _ => []
  | .node ((n, c) :: rest), pre =>
      (pre ++ [n]) :: (get_subfolders c (pre ++ [n]) ++ get_subfolders (.node rest) pre)

/-- `p` names a directory of the tree (the root itself for `[]`): used to
characterise the output of `get_subfolders`. -/
def isDir : FsTree → List String → Bool
  | _, [] => true
  | .node [], _ :: _ => false
  | .node ((m, c) :: rest), n :: p => (m == n && isDir c p) || isDir (.node rest) (n :: p)

/-- One observable step of a sync phase: a filesystem mutation, a dry-run
"would …" report, or an interaction/status line. -/
inductive Event where
  | createdFolder (p : RelPath)
  | setFolderTime (p : RelPath)
  | wouldCreateFolder (p : RelPath)
  | deletedFolder (p : RelPath)
  | wouldDeleteFolder (p : RelPath)
  | copiedFile (p : RelPath)
  | wouldCopyFile (p : RelPath)
  | deletedFile (p : RelPath)
  | wouldDeleteFile (p : RelPath)
  | reportNoNewFiles
  | reportCopyCount (n : Nat)
  | promptCopy
  | cancelReport (curr prev : RelPath)
  | reportModified (src dest : RelPath)
  | reportNoModified
  | reportModifiedCount (n : Nat)
  | promptModified
  | reportDeleteCount (n : Nat)
  | promptDelete
  | infoDeleting
  | listDeleteFile (p : RelPath)
  | promptDeleteConfirm
deriving DecidableEq

/-- Events that mutate the filesystem (mkdir, utime, rmdir, copy2, unlink). -/
def isMutation : Event → Bool
  | .createdFolder _ => true
  | .setFolderTime _ => true
  | .deletedFolder _ => true
  | .copiedFile _ => true
  | .deletedFile _ => true
  | _ => false

/-- Events that report one planned or executed sync action (a create, delete
or copy — real or "would …"). A folder creation counts once even though the
real run also sets the folder's timestamp. -/
def isAction : Event → Bool
  | .createdFolder _ => true
  | .wouldCreateFolder _ => true
  | .deletedFolder _ => true
  | .wouldDeleteFolder _ => true
  | .copiedFile _ => true
  | .wouldCopyFile _ => true
  | .deletedFile _ => true
  | .wouldDeleteFile _ => true
  | _ => false

def mutationCount (es : List Event) : Nat := es.countP isMutation

def actionCount (es : List Event) : Nat := es.countP isAction

/-- `folders_to_create = source_subfolders - destination_subfolders`
(line 162): the scans are modelled by their iteration lists, the set
difference by a filter. -/
def folders_to_create (sourceSubfolders destSubfolders : List RelPath) : List RelPath :=
  sourceSubfolders.filter (fun p => !decide (p ∈ destSubfolders))

/-- `folders_to_delete = destination_subfolders - source_subfolders`
(line 163). -/
def folders_to_delete (sourceSubfolders destSubfolders : List RelPath) : List RelPath :=
  destSubfolders.filter (fun p => !decide (p ∈ sourceSubfolders))

/-- `files_to_copy = source_files - dest_files` (line 47). -/
def files_to_copy (sourceFiles destFiles : List RelPath) : List RelPath :=
  sourceFiles.filter (fun p => !decide (p ∈ destFiles))

/-- `files_to_delete = dest_files - source_files` (line 130). -/
def files_to_delete (sourceFiles destFiles : List RelPath) : List RelPath :=
  destFiles.filter (fun p => !decide (p ∈ sourceFiles))

/-- `sorted(folders_to_create, key=len)` (line 168): stable sort by
segment count, ascending (Python's `sorted` is stable; so is insertion
sort, which therefore computes the same list). -/
def sortByLen (l : List RelPath) : List RelPath :=
  l.insertionSort (fun p q => p.length ≤ q.length)

/-- `sorted(folders_to_delete, key=len, reverse=True)` (line 185): stable
sort by segment count, descending (`reverse=True` keeps ties in iteration
order, as does insertion sort under the flipped comparison). -/
def sortByLenRev (l : List RelPath) : List RelPath :=
  l.insertionSort (fun p q => q.length ≤ p.length)

instance : IsTotal RelPath (fun p q => p.length ≤ q.length) :=
  ⟨fun _ _ => Nat.le_total _ _⟩

instance : IsTrans RelPath (fun p q => p.length ≤ q.length) :=
  ⟨fun _ _ _ => Nat.le_trans⟩

instance : IsTotal RelPath (fun p q => q.length ≤ p.length) :=
  ⟨fun _ _ => Nat.le_total _ _⟩

instance : IsTrans RelPath (fun p q => q.length ≤ p.length) :=
  ⟨fun _ _ _ h1 h2 => Nat.le_trans h2 h1⟩

/-- The order in which `sync_folders` processes folder creations. -/
def createOrder (sourceSubfolders destSubfolders : List RelPath) : List RelPath :=
  sortByLen (folders_to_create sourceSubfolders destSubfolders)

/-- The order in which `sync_folders` processes folder deletions. -/
def deleteOrder (sourceSubfolders destSubfolders : List RelPath) : List RelPath :=
  sortByLenRev (folders_to_delete sourceSubfolders destSubfolders)

/-- Embedding of `sync_folders` (lines 158–193).  Inputs are the two
subfolder scans (`get_subfolders` results as iterated); output is the event
trace together with the `new_folders` list the function returns.  In the
real run each created folder yields a `createdFolder` and a `setFolderTime`
event (mkdir then `os.utime`); the dry run only reports. -/
def sync_folders (destRoot : RelPath) (sourceSubfolders destSubfolders : List RelPath)
    (dry_run : Bool) : List Event × List RelPath :=
  let toCreate := createOrder sourceSubfolders destSubfolders
  let toDelete := deleteOrder sourceSubfolders destSubfolders
  let createEvents := (toCreate.map (fun f =>
      if dry_run then [Event.wouldCreateFolder (destRoot ++ f)]
      else [Event.createdFolder (destRoot ++ f), Event.setFolderTime (destRoot ++ f)])).flatten
  let deleteEvents := toDelete.map (fun f =>
      if dry_run then Event.wouldDeleteFolder (destRoot ++ f)
      else Event.deletedFolder (destRoot ++ f))
  let new_folders := toCreate.map (fun f => destRoot ++ f)
  (createEvents ++ deleteEvents, new_folders)

/-- The copy loop of `sync_files` (lines 63–91).  `i` is the running
enumeration index, `prev`/`curr` the `prevFile`/`currFile` variables
(destination paths; initially the empty string, modelled `[]`).  `intr`
gives the index of the file whose `shutil.copy2` the operator interrupts
(`none`: no interrupt).  On interrupt the handler reports the current and
previous file (`cancelReport`) and the process exits with status 1; the
second component is that exit status. -/
def copyLoop (destRoot : RelPath) (dry_run : Bool) (intr : Option Nat) :
    List RelPath → Nat → RelPath → RelPath → List Event × Option Nat
  | [], _, _, _ => ([], none)
  | f :: rest, i, prev, curr =>
    if dry_run then
      let (es, st) := copyLoop destRoot dry_run intr rest (i + 1) prev curr
      (Event.wouldCopyFile (destRoot ++ f) :: es, st)
    else
      let prev1 := curr
      let curr1 := destRoot ++ f
      if intr = some i then ([Event.cancelReport curr1 prev1], some 1)
      else
        let (es, st) := copyLoop destRoot dry_run intr rest (i + 1) prev1 curr1
        (Event.copiedFile (destRoot ++ f) :: es, st)

/-- Embedding of `sync_files` (lines 43–91).  Inputs are the two file scans
(iteration lists of `recursivly_get_files` results), the operator's answer
to the copy prompt, the dry-run flag and the optional interrupt point.
Empty `files_to_copy`: report and return before any prompt (lines 54–56);
otherwise report the count, prompt, and stop unless the lowered answer is
`"y"` (line 59); then run the copy loop. -/
def sync_files (destRoot : RelPath) (sourceFiles destFiles : List RelPath)
    (answer : List Char) (dry_run : Bool) (intr : Option Nat) : List Event × Option Nat :=
  let ftc := files_to_copy sourceFiles destFiles
  if ftc.length = 0 then ([Event.reportNoNewFiles], none)
  else if lower answer ≠ ['y'] then ([Event.reportCopyCount ftc.length, Event.promptCopy], none)
  else
    let (es, st) := copyLoop destRoot dry_run intr ftc 0 [] []
    (Event.reportCopyCount ftc.length :: Event.promptCopy :: es, st)

/-- The detection loop of `sync_modified_files` (lines 99–105): iterate over
the source scan; stat both files; the destination stat raises when the
destination tree lacks the file (second component `none`, the events so
far stand); otherwise flag the pair iff the source mtime is strictly
greater, printing a `reportModified` line for each flagged pair. -/
def detect_modified (srcRoot destRoot : RelPath) (destFiles : List RelPath)
    (srcMTime destMTime : RelPath → Nat) :
    List RelPath → List Event × Option (List (RelPath × RelPath))
  | [] => ([], some [])
  | f :: rest =>
    if f ∈ destFiles then
      if srcMTime f > destMTime f then
        let (es, r) := detect_modified srcRoot destRoot destFiles srcMTime destMTime rest
        (Event.reportModified (srcRoot ++ f) (destRoot ++ f) :: es,
         r.map (fun l => (srcRoot ++ f, destRoot ++ f) :: l))
      else detect_modified srcRoot destRoot destFiles srcMTime destMTime rest
    else ([], none)

/-- Embedding of `sync_modified_files` (lines 94–123).  The Bool records
whether the destination stat raised (aborting the phase with the events
printed so far).  Otherwise: nothing modified — report and return; else
report the count, prompt, and copy each flagged pair unless declined. -/
def sync_modified_files (srcRoot destRoot : RelPath) (sourceFiles destFiles : List RelPath)
    (srcMTime destMTime : RelPath → Nat) (answer : List Char) (dry_run : Bool) :
    List Event × Bool :=
  let (des, r) := detect_modified srcRoot destRoot destFiles srcMTime destMTime sourceFiles
  match r with
  | none => (des, true)
  | some mods =>
    if mods.length = 0 then (des ++ [Event.reportNoModified], false)
    else if lower answer ≠ ['y'] then
      (des ++ [Event.reportModifiedCount mods.length, Event.promptModified], false)
    else
      (des ++ [Event.reportModifiedCount mods.length, Event.promptModified] ++
        mods.map (fun sd => if dry_run then Event.wouldCopyFile sd.2 else Event.copiedFile sd.2),
       false)

/-- Embedding of `delete_files` (lines 126–155).  The count is reported and
the three-way prompt issued unconditionally (the code has no empty-set
early return).  `choice` answers the first prompt: lowered `"y"` deletes,
lowered `"l"` lists every candidate and asks again (`listAnswer`), anything
else returns; declining the second prompt returns.  The deletion loop
deletes (or, dry run, reports it would delete) each file. -/
def delete_files (destRoot : RelPath) (sourceFiles destFiles : List RelPath)
    (choice listAnswer : List Char) (dry_run : Bool) : List Event :=
  let ftd := files_to_delete sourceFiles destFiles
  let deletions := ftd.map (fun f =>
      if dry_run then Event.wouldDeleteFile (destRoot ++ f)
      else Event.deletedFile (destRoot ++ f))
  Event.reportDeleteCount ftd.length :: Event.promptDelete ::
    (if lower choice = ['y'] then Event.infoDeleting :: deletions
     else if lower choice = ['l'] then
       ftd.map (fun f => Event.listDeleteFile (destRoot ++ f)) ++ [Event.promptDeleteConfirm] ++
         (if lower listAnswer ≠ ['y'] then [] else deletions)
     else [])

/-! ## Helper lemmas -/

/-- The list model of Python's `set(a) - set(b)` has the `Finset` difference
as its underlying set. -/
theorem filter_not_mem_toFinset (l l' : List RelPath) :
    (l.filter (fun p => !decide (p ∈ l'))).toFinset = l.toFinset \ l'.toFinset := by
  ext p
  simp [List.mem_filter]

/-- When the two scans have the same underlying set, the set difference is
empty. -/
theorem filter_not_mem_eq_nil (l l' : List RelPath) (h : l.toFinset = l'.toFinset) :
    l.filter (fun p => !decide (p ∈ l')) = [] := by
  rw [List.filter_eq_nil_iff]
  intro p hp
  have : p ∈ l'.toFinset := h ▸ List.mem_toFinset.mpr hp
  simp [List.mem_toFinset.mp this]

/-! ## C1 -/

/-- C1: the sync plan is pure set subtraction — `foldersToCreate` is
`sourceFolders − destFolders`, `foldersToDelete` is
`destFolders − sourceFolders`, `filesToCopy` is `sourceFiles − destFiles`,
`filesToDelete` is `destFiles − sourceFiles`; when the two scans agree as
sets, all four sets are empty. -/
theorem c1_sync_plan_diffs (sf df sFiles dFiles : List RelPath) :
    (folders_to_create sf df).toFinset = sf.toFinset \ df.toFinset ∧
    (folders_to_delete sf df).toFinset = df.toFinset \ sf.toFinset ∧
    (files_to_copy sFiles dFiles).toFinset = sFiles.toFinset \ dFiles.toFinset ∧
    (files_to_delete sFiles dFiles).toFinset = dFiles.toFinset \ sFiles.toFinset ∧
    (sf.toFinset = df.toFinset → sFiles.toFinset = dFiles.toFinset →
      folders_to_create sf df = [] ∧ folders_to_delete sf df = [] ∧
      files_to_copy sFiles dFiles = [] ∧ files_to_delete sFiles dFiles = []) := by
  refine ⟨filter_not_mem_toFinset sf df, filter_not_mem_toFinset df sf,
    filter_not_mem_toFinset sFiles dFiles, filter_not_mem_toFinset dFiles sFiles, ?_⟩
  intro h1 h2
  exact ⟨filter_not_mem_eq_nil sf df h1, filter_not_mem_eq_nil df sf h1.symm,
    filter_not_mem_eq_nil sFiles dFiles h2, filter_not_mem_eq_nil dFiles sFiles h2.symm⟩

/-- Witness for C1 at concrete equal scans. -/
theorem c1_sync_plan_diffs_witness :
    folders_to_create [["a"]] [["a"]] = [] ∧ folders_to_delete [["a"]] [["a"]] = [] ∧
    files_to_copy [["f"]] [["f"]] = [] ∧ files_to_delete [["f"]] [["f"]] = [] :=
  (c1_sync_plan_diffs [["a"]] [["a"]] [["f"]] [["f"]]).2.2.2.2 rfl rfl

/-! ## C8 -/

/-- C8: when there are no new files to copy, `sync_files` only reports that
there is nothing to do and returns — no confirmation prompt is issued. -/
theorem c8_empty_copy_set (destRoot : RelPath) (sourceFiles destFiles : List RelPath)
    (answer : List Char) (dry_run : Bool) (intr : Option Nat)
    (h : files_to_copy sourceFiles destFiles = []) :
    sync_files destRoot sourceFiles destFiles answer dry_run intr =
      ([Event.reportNoNewFiles], none) ∧
    Event.promptCopy ∉ (sync_files destRoot sourceFiles destFiles answer dry_run intr).1 := by
  constructor <;> simp [sync_files, h]

/-- Witness for C8: source and destination file scans coincide. -/
theorem c8_empty_copy_set_witness :
    sync_files ["d"] [["f"]] [["f"]] ['y'] false none = ([Event.reportNoNewFiles], none) :=
  (c8_empty_copy_set ["d"] [["f"]] [["f"]] ['y'] false none (by decide)).1

/-! ## C6 (corrected) -/

/-- C6 counterexample: with an empty set of files to delete, `delete_files`
still issues the confirmation prompt — the code has no empty-set early
return, contradicting the claim that no prompt is issued. -/
theorem c6_counterexample :
    files_to_delete [] [] = [] ∧
    Event.promptDelete ∈ delete_files [] [] [] ['n'] ['n'] false := by
  constructor
  · rfl
  · simp [delete_files]

/-- C6 amended: when the set of files to delete is empty, the prune
operation reports zero files but still issues the confirmation prompt, and
no file is deleted (no mutation) whatever the answers. -/
theorem c6_empty_prune (destRoot : RelPath) (sourceFiles destFiles : List RelPath)
    (choice listAnswer : List Char) (dry_run : Bool)
    (h : files_to_delete sourceFiles destFiles = []) :
    Event.reportDeleteCount 0 ∈
      delete_files destRoot sourceFiles destFiles choice listAnswer dry_run ∧
    Event.promptDelete ∈ delete_files destRoot sourceFiles destFiles choice listAnswer dry_run ∧
    mutationCount (delete_files destRoot sourceFiles destFiles choice listAnswer dry_run) = 0 := by
  simp only [delete_files, h, List.map_nil, List.length_nil, mutationCount]
  refine ⟨by simp, by simp, ?_⟩
  split
  · simp [isMutation]
  · split <;> simp [isMutation]

/-- Witness for C6 amended at concrete empty scans. -/
theorem c6_empty_prune_witness :
    Event.promptDelete ∈ delete_files ["d"] [] [] ['y'] ['y'] false ∧
    mutationCount (delete_files ["d"] [] [] ['y'] ['y'] false) = 0 := by
  have h := c6_empty_prune ["d"] [] [] ['y'] ['y'] false (by decide)
  exact ⟨h.2.1, h.2.2⟩

/-! ## C7 -/

/-- C7: in the prune operation, declining the first confirmation (an answer
that is neither `y` nor `l` once lowered), or choosing the list option and
then declining the second confirmation, leaves the filesystem untouched —
no deletion happens. -/
theorem c7_decline_no_mutation (destRoot : RelPath) (sourceFiles destFiles : List RelPath)
    (choice listAnswer : List Char) (dry_run : Bool)
    (h : (lower choice ≠ ['y'] ∧ lower choice ≠ ['l']) ∨
         (lower choice = ['l'] ∧ lower listAnswer ≠ ['y'])) :
    mutationCount (delete_files destRoot sourceFiles destFiles choice listAnswer dry_run) = 0 ∧
    ∀ p, Event.deletedFile p ∉
      delete_files destRoot sourceFiles destFiles choice listAnswer dry_run := by
  rcases h with ⟨h1, h2⟩ | ⟨h1, h2⟩
  · simp [delete_files, h1, h2, mutationCount, isMutation]
  · constructor
    · have hne : (['l'] : List Char) ≠ ['y'] := by decide
      simp only [delete_files, h1, mutationCount, if_neg hne, if_pos (rfl : (['l'] : List Char) = ['l']), if_pos h2]
      simp [isMutation, List.countP_append, List.countP_map, Function.comp]
    · intro p
      simp [delete_files, h1, h2]

/-- Witness for C7: operator answers `n` to the first prompt. -/
theorem c7_decline_no_mutation_witness :
    mutationCount (delete_files ["d"] [] [["z"]] ['n'] ['y'] false) = 0 :=
  (c7_decline_no_mutation ["d"] [] [["z"]] ['n'] ['y'] false (Or.inl (by decide))).1

/-! ## C9 -/

/-- C9: `clean_path` strips at most one trailing and at most one leading
double-quote and changes nothing else — the input is always the output
with an optional leading and an optional trailing quote restored — and a
string that neither starts nor ends with a double-quote is unchanged. -/
theorem c9_clean_path (s : List Char) :
    (s = clean_path s ∨ s = '"' :: clean_path s ∨ s = clean_path s ++ ['"'] ∨
      s = '"' :: (clean_path s ++ ['"'])) ∧
    (s.head? ≠ some '"' → s.getLast? ≠ some '"' → clean_path s = s) := by
  constructor
  · by_cases hlast : s.getLast? = some '"'
    · have hsplit : s.dropLast ++ ['"'] = s :=
        List.dropLast_append_getLast? _ (Option.mem_def.mpr hlast)
      by_cases hh : s.dropLast.head? = some '"'
      · right; right; right
        have hcons : '"' :: s.dropLast.tail = s.dropLast :=
          List.cons_head?_tail (Option.mem_def.mpr hh)
        have hcp : clean_path s = s.dropLast.tail := by simp [clean_path, hlast, hh]
        rw [hcp]
        calc s = s.dropLast ++ ['"'] := hsplit.symm
          _ = ('"' :: s.dropLast.tail) ++ ['"'] := by rw [hcons]
          _ = '"' :: (s.dropLast.tail ++ ['"']) := rfl
      · right; right; left
        have hcp : clean_path s = s.dropLast := by simp [clean_path, hlast, hh]
        rw [hcp]
        exact hsplit.symm
    · by_cases hh : s.head? = some '"'
      · right; left
        have hcons : '"' :: s.tail = s := List.cons_head?_tail (Option.mem_def.mpr hh)
        have hcp : clean_path s = s.tail := by simp [clean_path, hlast, hh]
        rw [hcp]
        exact hcons.symm
      · left
        simp [clean_path, hlast, hh]
  · intro h1 h2
    simp [clean_path, h1, h2]

/-- Witness for C9 at a quote-free string. -/
theorem c9_clean_path_witness : clean_path ['a', 'b'] = ['a', 'b'] :=
  (c9_clean_path ['a', 'b']).2 (by decide) (by decide)

/-! ## C2 -/

/-- `sorted(…, key=len)` yields a list ascending in segment count. -/
theorem pairwise_sortByLen (l : List RelPath) :
    (sortByLen l).Pairwise (fun p q => p.length ≤ q.length) :=
  List.sorted_insertionSort _ l

/-- `sorted(…, key=len, reverse=True)` yields a list descending in segment
count. -/
theorem pairwise_sortByLenRev (l : List RelPath) :
    (sortByLenRev l).Pairwise (fun p q => q.length ≤ p.length) :=
  List.sorted_insertionSort _ l

/-- Any iteration order of the three example folders sorts to the stated
create order and reverse delete order. -/
theorem sortByLen_example (l : List RelPath)
    (hl : l.Perm [["a"], ["a", "b"], ["a", "b", "c"]]) :
    sortByLen l = [["a"], ["a", "b"], ["a", "b", "c"]] ∧
    sortByLenRev l = [["a", "b", "c"], ["a", "b"], ["a"]] := by
  have h3 : l.length = 3 := hl.length_eq
  obtain ⟨x, y, z, rfl⟩ : ∃ x y z, l = [x, y, z] := by
    match l, h3 with
    | [x, y, z], _ => exact ⟨x, y, z, rfl⟩
  have hx : x ∈ ([["a"], ["a", "b"], ["a", "b", "c"]] : List RelPath) :=
    hl.mem_iff.mp (by simp)
  have hy : y ∈ ([["a"], ["a", "b"], ["a", "b", "c"]] : List RelPath) :=
    hl.mem_iff.mp (by simp)
  have hz : z ∈ ([["a"], ["a", "b"], ["a", "b", "c"]] : List RelPath) :=
    hl.mem_iff.mp (by simp)
  simp only [List.mem_cons, List.not_mem_nil, or_false] at hx hy hz
  rcases hx with rfl | rfl | rfl <;> rcases hy with rfl | rfl | rfl <;>
    rcases hz with rfl | rfl | rfl <;>
    first
      | (exfalso; revert hl; decide)
      | decide

/-- C2: folder sync processes creations in ascending order of
path-segment-count and deletions in descending order — `createOrder` and
`deleteOrder` are the exact processing orders of `sync_folders`, each a
permutation of its diff set — and on the example set
`["a"], ["a","b"], ["a","b","c"]` (in whatever order the set iterates) the
create order is `["a"], ["a","b"], ["a","b","c"]` and the delete order the
reverse. -/
theorem c2_folder_sync_order (sf df : List RelPath) (l : List RelPath)
    (hl : l.Perm [["a"], ["a", "b"], ["a", "b", "c"]]) :
    (createOrder sf df).Pairwise (fun p q => p.length ≤ q.length) ∧
    (createOrder sf df).Perm (folders_to_create sf df) ∧
    (deleteOrder sf df).Pairwise (fun p q => q.length ≤ p.length) ∧
    (deleteOrder sf df).Perm (folders_to_delete sf df) ∧
    sortByLen l = [["a"], ["a", "b"], ["a", "b", "c"]] ∧
    sortByLenRev l = [["a", "b", "c"], ["a", "b"], ["a"]] :=
  ⟨pairwise_sortByLen _, List.perm_insertionSort _ _, pairwise_sortByLenRev _,
    List.perm_insertionSort _ _, (sortByLen_example l hl).1, (sortByLen_example l hl).2⟩

/-- Witness for C2 with the example folders iterated in a scrambled order. -/
theorem c2_folder_sync_order_witness :
    sortByLen [["a", "b"], ["a", "b", "c"], ["a"]] = [["a"], ["a", "b"], ["a", "b", "c"]] ∧
    sortByLenRev [["a", "b"], ["a", "b", "c"], ["a"]] = [["a", "b", "c"], ["a", "b"], ["a"]] := by
  have h := c2_folder_sync_order [] [] [["a", "b"], ["a", "b", "c"], ["a"]] (by decide)
  exact ⟨h.2.2.2.2.1, h.2.2.2.2.2⟩

/-! ## C5 -/

/-- The copy loop, interrupted during the copy of the file at enumeration
index `intr`: every earlier file was copied, the cancel handler reports the
interrupted file as current and the file copied just before it as
previous (or the incoming `curr` when the interrupt hits the first
iteration), and the exit status is 1. -/
theorem copyLoop_cancel (destRoot : RelPath) (intr : Nat) :
    ∀ (l : List RelPath) (i : Nat) (prev curr : RelPath), i ≤ intr → intr - i < l.length →
    copyLoop destRoot false (some intr) l i prev curr =
      ((l.take (intr - i)).map (fun f => Event.copiedFile (destRoot ++ f)) ++
        [Event.cancelReport (destRoot ++ l.getD (intr - i) [])
          (if intr = i then curr else destRoot ++ l.getD (intr - i - 1) [])], some 1) := by
  intro l
  induction l with
  | nil => intro i prev curr _ h2; simp at h2
  | cons f rest ih =>
    intro i prev curr h1 h2
    by_cases hi : intr = i
    · subst hi
      simp [copyLoop, Nat.sub_self]
    · have hlt : i < intr := Nat.lt_of_le_of_ne h1 (fun h => hi h.symm)
      have hrest : intr - (i + 1) < rest.length := by simp at h2; omega
      rw [copyLoop]
      rw [if_neg (by simp), if_neg (fun h => hi (Option.some.inj h))]
      rw [ih (i + 1) curr (destRoot ++ f) hlt hrest]
      have e1 : intr - (i + 1) = intr - i - 1 := by omega
      have htake : (f :: rest).take (intr - i) = f :: rest.take (intr - i - 1) := by
        rw [show intr - i = (intr - i - 1) + 1 by omega]
        simp
      have hgetD : (f :: rest).getD (intr - i) [] = rest.getD (intr - i - 1) [] := by
        rw [show intr - i = (intr - i - 1) + 1 by omega]
        simp
      by_cases hi1 : intr = i + 1
      · have e0 : intr - i - 1 = 0 := by omega
        simp [hi1, e1, e0, htake, hgetD]
      · have hgetD2 : (f :: rest).getD (intr - i - 1) [] = rest.getD (intr - i - 1 - 1) [] := by
          rw [show intr - i - 1 = (intr - i - 1 - 1) + 1 by omega]
          simp
        have e2 : intr - i - 1 - 1 = intr - (i + 1) - 1 := by omega
        simp [if_neg hi1, if_neg hi, hgetD2, e1, e2, htake, hgetD]
        refine ⟨?_, ?_⟩
        · rw [show intr - i = (intr - i - 1) + 1 by omega]
          simp
        · rw [show intr - i - 1 = (intr - (i + 1) - 1) + 1 by omega]
          simp

/-- C5: interrupting the real copy run during the copy of file `k` of the
batch (1-based, `k > 1`, operator confirmed): the trace shows the count
report, the prompt, a `copiedFile` event for each of files `1 … k−1` in
order, then the cancel report naming file `k` as current and file `k−1` as
previous, and the process exits with status 1. -/
theorem c5_interrupt_report (destRoot : RelPath) (sourceFiles destFiles : List RelPath)
    (answer : List Char) (k : Nat) (hans : lower answer = ['y'])
    (hk1 : 1 < k) (hk2 : k ≤ (files_to_copy sourceFiles destFiles).length) :
    sync_files destRoot sourceFiles destFiles answer false (some (k - 1)) =
      (Event.reportCopyCount (files_to_copy sourceFiles destFiles).length ::
        Event.promptCopy ::
        (((files_to_copy sourceFiles destFiles).take (k - 1)).map
            (fun f => Event.copiedFile (destRoot ++ f)) ++
          [Event.cancelReport
            (destRoot ++ (files_to_copy sourceFiles destFiles).getD (k - 1) [])
            (destRoot ++ (files_to_copy sourceFiles destFiles).getD (k - 2) [])]),
       some 1) := by
  have hlen : (files_to_copy sourceFiles destFiles).length ≠ 0 := by omega
  rw [sync_files]
  simp only [if_neg hlen, hans, ite_not, if_pos rfl]
  rw [copyLoop_cancel destRoot (k - 1) (files_to_copy sourceFiles destFiles) 0 [] []
    (Nat.zero_le _) (by omega)]
  have hne : k - 1 ≠ 0 := by omega
  simp only [Nat.sub_zero, if_neg (fun h => hne h), Prod.mk.injEq]
  rw [if_pos trivial, show k - 1 - 1 = k - 2 by omega]

/-- Witness for C5: three files, interrupt while copying file 2. -/
theorem c5_interrupt_report_witness :
    sync_files ["d"] [["x"], ["y"], ["z"]] [] ['y'] false (some 1) =
      ([Event.reportCopyCount 3, Event.promptCopy, Event.copiedFile ["d", "x"],
        Event.cancelReport ["d", "y"] ["d", "x"]], some 1) := by
  have h := c5_interrupt_report ["d"] [["x"], ["y"], ["z"]] [] ['y'] 2
    (by decide) (by decide) (by decide)
  rw [h]
  decide

/-! ## C4 -/

/-- The copy loop without interruption copies (or would-copy) every file in
order and ends normally. -/
theorem copyLoop_none (destRoot : RelPath) (dry_run : Bool) :
    ∀ (l : List RelPath) (i : Nat) (prev curr : RelPath),
    copyLoop destRoot dry_run none l i prev curr =
      (l.map (fun f => if dry_run then Event.wouldCopyFile (destRoot ++ f)
                       else Event.copiedFile (destRoot ++ f)), none) := by
  intro l
  induction l with
  | nil => intro i prev curr; cases dry_run <;> rfl
  | cons f rest ih =>
    intro i prev curr
    rw [copyLoop]
    cases dry_run <;> simp [ih]

/-- Counting under a map whose image never satisfies the predicate. -/
theorem countP_comp_false {α : Type} (p : Event → Bool) (g : α → Event)
    (hp : ∀ a, p (g a) = false) : ∀ l : List α, l.countP (p ∘ g) = 0 := by
  intro l
  induction l with
  | nil => rfl
  | cons a r ih => simp [List.countP_cons, Function.comp, hp, ih]

/-- Counting under a map whose image always satisfies the predicate. -/
theorem countP_comp_true {α : Type} (p : Event → Bool) (g : α → Event)
    (hp : ∀ a, p (g a) = true) : ∀ l : List α, l.countP (p ∘ g) = l.length := by
  intro l
  induction l with
  | nil => rfl
  | cons a r ih => simp [List.countP_cons, Function.comp, hp, ih]

/-- Folder creation in a real run: one reported action per folder. -/
theorem actionCount_create_real (destRoot : RelPath) (l : List RelPath) :
    actionCount ((l.map (fun f =>
      [Event.createdFolder (destRoot ++ f), Event.setFolderTime (destRoot ++ f)])).flatten) =
      l.length := by
  induction l with
  | nil => rfl
  | cons f rest ih => simp_all [actionCount, List.countP_cons, isAction]

/-- The detection loop of `sync_modified_files` only prints: it performs no
mutation and reports no action. -/
theorem detect_events (srcRoot destRoot : RelPath) (destFiles : List RelPath)
    (sm dm : RelPath → Nat) :
    ∀ l : List RelPath,
    (detect_modified srcRoot destRoot destFiles sm dm l).1.countP isMutation = 0 ∧
    (detect_modified srcRoot destRoot destFiles sm dm l).1.countP isAction = 0 := by
  intro l
  induction l with
  | nil => exact ⟨rfl, rfl⟩
  | cons f rest ih =>
    rw [detect_modified]
    split
    · split
      · simpa [List.countP_cons, isMutation, isAction] using ih
      · exact ih
    · exact ⟨rfl, rfl⟩

/-- Dry-run versus real run for `sync_folders`. -/
theorem sync_folders_dry_real (destRoot : RelPath) (sf df : List RelPath) :
    mutationCount (sync_folders destRoot sf df true).1 = 0 ∧
    actionCount (sync_folders destRoot sf df true).1 =
      actionCount (sync_folders destRoot sf df false).1 := by
  rw [sync_folders, sync_folders]
  constructor
  · simp [mutationCount, List.countP_append, List.countP_map, List.countP_flatten,
      isMutation, Function.comp_def, List.countP_cons]
  · simp [actionCount, List.countP_append, List.countP_map, List.countP_flatten,
      isAction, Function.comp_def, List.countP_cons]

/-- Dry-run versus real run for `sync_files` (no interrupt). -/
theorem sync_files_dry_real (destRoot : RelPath) (sFiles dFiles : List RelPath)
    (answer : List Char) :
    mutationCount (sync_files destRoot sFiles dFiles answer true none).1 = 0 ∧
    actionCount (sync_files destRoot sFiles dFiles answer true none).1 =
      actionCount (sync_files destRoot sFiles dFiles answer false none).1 := by
  rw [sync_files, sync_files]
  by_cases h0 : (files_to_copy sFiles dFiles).length = 0
  · simp [h0, mutationCount, actionCount, isMutation, isAction]
  · by_cases hans : lower answer = ['y']
    · simp [h0, hans, copyLoop_none, mutationCount, actionCount, isMutation, isAction,
        List.countP_cons, List.countP_map, Function.comp]
      rw [countP_comp_true _ _ (fun a => rfl), countP_comp_true _ _ (fun a => rfl)]
    · simp [h0, hans, mutationCount, actionCount, isMutation, isAction, List.countP_cons]

/-- Dry-run versus real run for `sync_modified_files`. -/
theorem sync_modified_dry_real (srcRoot destRoot : RelPath) (sFiles dFiles : List RelPath)
    (sm dm : RelPath → Nat) (answer : List Char) :
    mutationCount (sync_modified_files srcRoot destRoot sFiles dFiles sm dm answer true).1 = 0 ∧
    actionCount (sync_modified_files srcRoot destRoot sFiles dFiles sm dm answer true).1 =
      actionCount (sync_modified_files srcRoot destRoot sFiles dFiles sm dm answer false).1 := by
  have hdes := detect_events srcRoot destRoot dFiles sm dm sFiles
  rcases hdet : detect_modified srcRoot destRoot dFiles sm dm sFiles with ⟨des, r⟩
  rw [hdet] at hdes
  rw [sync_modified_files, sync_modified_files, hdet]
  simp only at hdes
  cases r with
  | none => exact ⟨hdes.1, rfl⟩
  | some mods =>
    by_cases h0 : mods.length = 0
    · simp [h0, mutationCount, actionCount, List.countP_append, hdes.1, hdes.2,
        isMutation, isAction]
    · by_cases hans : lower answer = ['y']
      · simp [h0, hans, mutationCount, actionCount, List.countP_append, List.countP_cons,
          List.countP_map, hdes.1, hdes.2, isMutation, isAction, Function.comp]
        rw [countP_comp_true _ _ (fun a => rfl), countP_comp_true _ _ (fun a => rfl)]
      · simp [h0, hans, mutationCount, actionCount, List.countP_append, List.countP_cons,
          hdes.1, hdes.2, isMutation, isAction]

/-- Dry-run versus real run for `delete_files`. -/
theorem delete_files_dry_real (destRoot : RelPath) (sFiles dFiles : List RelPath)
    (choice listAnswer : List Char) :
    mutationCount (delete_files destRoot sFiles dFiles choice listAnswer true) = 0 ∧
    actionCount (delete_files destRoot sFiles dFiles choice listAnswer true) =
      actionCount (delete_files destRoot sFiles dFiles choice listAnswer false) := by
  rw [delete_files, delete_files]
  by_cases h1 : lower choice = ['y']
  · simp [h1, mutationCount, actionCount, List.countP_cons, List.countP_map,
      isMutation, isAction, Function.comp]
    rw [countP_comp_true _ _ (fun a => rfl), countP_comp_true _ _ (fun a => rfl)]
  · by_cases h2 : lower choice = ['l']
    · by_cases h3 : lower listAnswer = ['y']
      · simp [h1, h2, h3, mutationCount, actionCount, List.countP_cons, List.countP_append,
          List.countP_map, isMutation, isAction, Function.comp]
        rw [countP_comp_true _ _ (fun a => rfl), countP_comp_true _ _ (fun a => rfl)]
      · simp [h1, h2, h3, mutationCount, actionCount, List.countP_cons, List.countP_append,
          List.countP_map, isMutation, isAction, Function.comp]
    · simp [h1, h2, mutationCount, actionCount, List.countP_cons, isMutation, isAction]

/-- C4: with `dry_run` true every phase — folder sync, file copy,
modified-file copy and prune — performs zero filesystem mutations (no
mkdir, rmdir, utime, copy or unlink event), and its trace reports exactly
as many planned actions as the real run over the same input (same scans and
same prompt answers, no interrupt) performs. -/
theorem c4_dry_run_invariant (srcRoot destRoot : RelPath)
    (sf df sFiles dFiles : List RelPath) (sm dm : RelPath → Nat)
    (copyAnswer modAnswer choice listAnswer : List Char) :
    (mutationCount (sync_folders destRoot sf df true).1 = 0 ∧
      actionCount (sync_folders destRoot sf df true).1 =
        actionCount (sync_folders destRoot sf df false).1) ∧
    (mutationCount (sync_files destRoot sFiles dFiles copyAnswer true none).1 = 0 ∧
      actionCount (sync_files destRoot sFiles dFiles copyAnswer true none).1 =
        actionCount (sync_files destRoot sFiles dFiles copyAnswer false none).1) ∧
    (mutationCount
        (sync_modified_files srcRoot destRoot sFiles dFiles sm dm modAnswer true).1 = 0 ∧
      actionCount (sync_modified_files srcRoot destRoot sFiles dFiles sm dm modAnswer true).1 =
        actionCount
          (sync_modified_files srcRoot destRoot sFiles dFiles sm dm modAnswer false).1) ∧
    (mutationCount (delete_files destRoot sFiles dFiles choice listAnswer true) = 0 ∧
      actionCount (delete_files destRoot sFiles dFiles choice listAnswer true) =
        actionCount (delete_files destRoot sFiles dFiles choice listAnswer false)) :=
  ⟨sync_folders_dry_real destRoot sf df,
   sync_files_dry_real destRoot sFiles dFiles copyAnswer,
   sync_modified_dry_real srcRoot destRoot sFiles dFiles sm dm modAnswer,
   delete_files_dry_real destRoot sFiles dFiles choice listAnswer⟩

/-! ## C3 (corrected) -/

/-- C3 counterexample: the detection loop does not restrict itself to paths
present in both scans — it iterates over all source files and stats each
destination path.  With source scan `{f}` and empty destination scan the
intersection is empty, so the claim predicts an empty modified list
(`some []`); the code instead stats the missing destination file and the
phase aborts with the stat error (`none`). -/
theorem c3_counterexample :
    (detect_modified ["s"] ["d"] [] (fun _ => 101) (fun _ => 100) [["f"]]).2 = none ∧
    [["f"]].filter (fun p => decide (p ∈ ([] : List RelPath))) = [] := by
  constructor
  · rfl
  · rfl

/-- C3 amended: modified-file detection iterates over all source paths and
aborts with the stat error as soon as it meets a source path absent from
the destination; when every source path is also present in the destination
(so the source set equals the intersection) it flags exactly the source
paths whose source mtime is strictly greater than the destination mtime —
in particular mtimes 100/100 are not flagged and 101/100 is flagged. -/
theorem c3_modified_detection (srcRoot destRoot : RelPath)
    (sourceFiles destFiles : List RelPath) (srcMTime destMTime : RelPath → Nat) :
    ((∀ f ∈ sourceFiles, f ∈ destFiles) →
      (detect_modified srcRoot destRoot destFiles srcMTime destMTime sourceFiles).2 =
        some ((sourceFiles.filter (fun f => decide (destMTime f < srcMTime f))).map
          (fun f => (srcRoot ++ f, destRoot ++ f)))) ∧
    (∀ f ∈ sourceFiles, f ∉ destFiles →
      (detect_modified srcRoot destRoot destFiles srcMTime destMTime sourceFiles).2 = none) ∧
    (detect_modified srcRoot destRoot [["f"]] (fun _ => 100) (fun _ => 100) [["f"]]).2 =
      some [] ∧
    (detect_modified srcRoot destRoot [["f"]] (fun _ => 101) (fun _ => 100) [["f"]]).2 =
      some [(srcRoot ++ ["f"], destRoot ++ ["f"])] := by
  refine ⟨?_, ?_, by simp [detect_modified], by simp [detect_modified]⟩
  · intro hsub
    induction sourceFiles with
    | nil => rfl
    | cons g rest ih =>
      have hg : g ∈ destFiles := hsub g (by simp)
      have ihr := ih (fun f hf => hsub f (by simp [hf]))
      rw [detect_modified]
      by_cases hcmp : srcMTime g > destMTime g
      · simp only [if_pos hg, if_pos hcmp]
        rcases hdet : detect_modified srcRoot destRoot destFiles srcMTime destMTime rest
          with ⟨des, r⟩
        rw [hdet] at ihr
        simp only at ihr ⊢
        rw [ihr]
        simp [List.filter_cons, hcmp]
      · simp only [if_pos hg, if_neg hcmp]
        rw [ihr]
        have : ¬ destMTime g < srcMTime g := hcmp
        simp [List.filter_cons, this]
  · intro f hf hnf
    induction sourceFiles with
    | nil => simp at hf
    | cons g rest ih =>
      rw [detect_modified]
      by_cases hg : g ∈ destFiles
      · have hfr : f ∈ rest := by
          rcases List.mem_cons.mp hf with rfl | h
          · exact absurd hg hnf
          · exact h
        have ihr := ih hfr
        by_cases hcmp : srcMTime g > destMTime g
        · simp only [if_pos hg, if_pos hcmp]
          rcases hdet : detect_modified srcRoot destRoot destFiles srcMTime destMTime rest
            with ⟨des, r⟩
          rw [hdet] at ihr
          simp only at ihr ⊢
          rw [ihr]
          rfl
        · simp only [if_pos hg, if_neg hcmp]
          exact ihr
      · simp [if_neg hg]

/-- Witness for C3 amended: two files, both present on both sides, both
newer at the source. -/
theorem c3_modified_detection_witness :
    (detect_modified ["s"] ["d"] [["f"], ["g"]] (fun _ => 101) (fun _ => 100)
        [["f"], ["g"]]).2 =
      some [(["s", "f"], ["d", "f"]), (["s", "g"], ["d", "g"])] := by
  have h := (c3_modified_detection ["s"] ["d"] [["f"], ["g"]] [["f"], ["g"]]
    (fun _ => 101) (fun _ => 100)).1 (by decide)
  rw [h]
  rfl

/-! ## C10 -/

/-- The empty relative path names the scan root, always a directory. -/
theorem isDir_nil (t : FsTree) : isDir t [] = true := by
  cases t; simp [isDir]

/-- Membership in `get_subfolders`: exactly the non-empty directory paths
of the tree, prefixed by the accumulator. -/
theorem mem_get_subfolders : ∀ (t : FsTree) (pre p : List String),
    p ∈ get_subfolders t pre ↔ ∃ s, s ≠ [] ∧ p = pre ++ s ∧ isDir t s = true
  | .node [], pre, p => by
    rw [get_subfolders]
    simp only [List.not_mem_nil, false_iff]
    rintro ⟨s, hs, rfl, hdir⟩
    cases s with
    | nil => exact hs rfl
    | cons n q => rw [isDir] at hdir; exact Bool.false_ne_true hdir
  | .node ((n, c) :: rest), pre, p => by
    rw [get_subfolders]
    simp only [List.mem_cons, List.mem_append]
    rw [mem_get_subfolders c (pre ++ [n]) p, mem_get_subfolders (.node rest) pre p]
    constructor
    · rintro (rfl | ⟨s, hs, rfl, hdir⟩ | ⟨s, hs, rfl, hdir⟩)
      · exact ⟨[n], by simp, rfl, by rw [isDir]; simp [isDir_nil]⟩
      · exact ⟨n :: s, by simp, by simp, by rw [isDir]; simp [hdir]⟩
      · cases s with
        | nil => exact absurd rfl hs
        | cons m q =>
          refine ⟨m :: q, by simp, rfl, ?_⟩
          rw [isDir]
          simp [hdir]
    · rintro ⟨s, hs, rfl, hdir⟩
      cases s with
      | nil => exact absurd rfl hs
      | cons m q =>
        rw [isDir] at hdir
        rcases (Bool.or_eq_true _ _).mp hdir with h | h
        · rcases (Bool.and_eq_true _ _).mp h with ⟨hm, hq⟩
          have hnm : n = m := by simpa using hm
          subst hnm
          cases q with
          | nil => left; rfl
          | cons q0 qr =>
            right; left
            exact ⟨q0 :: qr, by simp, by simp, hq⟩
        · right; right
          exact ⟨m :: q, by simp, rfl, h⟩

/-- Every ancestor (initial segment) of a directory path is a directory
path. -/
theorem isDir_append_left : ∀ (t : FsTree) (a b : List String),
    isDir t (a ++ b) = true → isDir t a = true
  | t, [], _ => fun _ => isDir_nil t
  | .node [], n :: a, b => by
    intro h
    rw [List.cons_append, isDir] at h
    exact absurd h (by simp)
  | .node ((m, c) :: rest), n :: a, b => by
    intro h
    rw [List.cons_append, isDir] at h
    rw [isDir]
    rcases (Bool.or_eq_true _ _).mp h with h1 | h1
    · rcases (Bool.and_eq_true _ _).mp h1 with ⟨hm, hd⟩
      have hrec := isDir_append_left c a b hd
      simp [hm, hrec]
    · have hrec := isDir_append_left (.node rest) (n :: a) b
        (by rw [List.cons_append]; exact h1)
      simp [hrec]

/-- C10: the subfolder scan is prefix-closed — for every tree and every
path with more than one segment in the list `get_subfolders` returns, each
proper non-empty initial segment of that path is also in the returned
list (so sorting the creation set by segment count puts every folder after
its parent). -/
theorem c10_subfolders_prefix_closed (t : FsTree) (p q : List String)
    (hp : p ∈ get_subfolders t []) (hlen : 1 < p.length)
    (hq : q ≠ []) (hqp : q <+: p) (hne : q ≠ p) :
    q ∈ get_subfolders t [] := by
  obtain ⟨s, hs, hps, hdir⟩ := (mem_get_subfolders t [] p).mp hp
  simp only [List.nil_append] at hps
  subst hps
  obtain ⟨r, rfl⟩ := hqp
  exact (mem_get_subfolders t [] q).mpr ⟨q, hq, by simp, isDir_append_left t q r hdir⟩

/-- Witness for C10: in the tree `a/b`, the scan lists `["a","b"]` and its
parent `["a"]`. -/
theorem c10_subfolders_prefix_closed_witness :
    ["a"] ∈ get_subfolders (FsTree.node [("a", FsTree.node [("b", FsTree.node [])])]) [] := by
  refine c10_subfolders_prefix_closed _ ["a", "b"] ["a"] ?_ (by decide) (by decide)
    (by decide) (by decide)
  simp [get_subfolders]
